import Mathlib

/-!
# Verification of the hextile polygon-tiling library

Shallow embedding of `src/helpers.js` and the square-mode tiling pipeline of
`src/index.js` over exact rational arithmetic.  Planar points and axis vectors
are pairs of rationals; JS `Math.floor`/`Math.ceil` become `Int.floor`/
`Int.ceil` on `ℚ`.  Where JS floating-point special values (NaN from `0/0`)
are observable, the embedding models them explicitly with a dedicated branch,
noted at the definition.
-/

namespace Hextile

/-- A planar point or axis vector `[x, y]` from the source. -/
abbrev Vec := ℚ × ℚ

/-- `dotProduct` from `src/helpers.js`: `v1.reduce((sum, e, i) => sum + e * v2[i], 0)`,
specialised to the two-component vectors the tiling code uses. -/
def dotProduct (v1 v2 : Vec) : ℚ :=
  v1.1 * v2.1 + v1.2 * v2.2

/-- `linearSolver` from `src/helpers.js`: Cramer's rule for the system
`dot((alpha1,beta1), p) = d1`, `dot((alpha2,beta2), p) = d2` with determinant
`DET = alpha1*beta2 - alpha2*beta1`.  (In `ℚ`, division by a zero `DET`
yields `0`; every use below is under the hypothesis `DET ≠ 0`.) -/
def linearSolver (a1 a2 : Vec) (d1 d2 : ℚ) : Vec :=
  let DET := a1.1 * a2.2 - a2.1 * a1.2
  ((a2.2 * d1 - a1.2 * d2) / DET,
   (-a2.1 * d1 + a1.1 * d2) / DET)

/-- Determinant of the two axes handed to `linearSolver`. -/
def det2 (a1 a2 : Vec) : ℚ := a1.1 * a2.2 - a2.1 * a1.2

/-- The effective width after `src/index.js` lines 57–58:
`options.width = Math.max(options.width, 500)` then
`options.width = Math.min(options.width, 20000)`. -/
def clampWidth (w : ℚ) : ℚ := min (max w 500) 20000

/-- `dx` of the default `equirectangular` projection in `src/helpers.js`:
`width / (Math.cos(center[1] / rad2deg) * radius) * rad2deg`.  The irrational
inputs `cos(lat0·π/180)` and `rad2deg = 180/π` are abstracted as the rational
parameters `cosLat0` and `rad2deg`, since the embedding is exact. -/
def equiDx (width cosLat0 rad2deg radius : ℚ) : ℚ :=
  width / (cosLat0 * radius) * rad2deg

/-- `dy` of the default `equirectangular` projection:
`width / radius * rad2deg`. -/
def equiDy (width rad2deg radius : ℚ) : ℚ :=
  width / radius * rad2deg

/-- `forward` of `equirectangular`: `[(lng - center[0]) / dx, (lat - center[1]) / dy]`. -/
def eqForward (center : Vec) (dx dy : ℚ) (p : Vec) : Vec :=
  ((p.1 - center.1) / dx, (p.2 - center.2) / dy)

/-- `inverse` of `equirectangular`: `[center[0] + x * dx, center[1] + y * dy]`. -/
def eqInverse (center : Vec) (dx dy : ℚ) (p : Vec) : Vec :=
  (center.1 + p.1 * dx, center.2 + p.2 * dy)

/-- One iteration of the `isInside` loop in `src/helpers.js` for the edge from
`prev = linearRing[i-1]` to `cur = linearRing[i]`, threading the parity bit.
The branch `dYp + dYm = 0` is reachable only when `dYp = dYm = 0` (both vertex
latitudes equal the query latitude): there JS computes `0/0 = NaN`, so
`deltaX` is `NaN`, the guard `deltaX <= 0` is false, and the parity toggles —
the embedding takes that branch explicitly. -/
def isInsideStep (lng lat : ℚ) (acc : Bool) (prev cur : Vec) : Bool :=
  let dYp := cur.2 - lat
  let dYm := lat - prev.2
  if dYp > 0 ∧ dYm ≤ 0 then acc
  else if dYp < 0 ∧ dYm ≥ 0 then acc
  else if dYp + dYm = 0 then !acc
  else
    let dX := (dYp * prev.1 + dYm * cur.1) / (dYp + dYm) - lng
    if dX ≤ 0 then acc else !acc

/-- `isInside` from `src/helpers.js`: even-odd parity over the consecutive
vertex pairs `(linearRing[i-1], linearRing[i])`, `i = 1 .. length-1`. -/
def isInside (p : Vec) (linearRing : List Vec) : Bool :=
  (linearRing.zip linearRing.tail).foldl
    (fun acc pr => isInsideStep p.1 p.2 acc pr.1 pr.2) false

/-- The run-time exceptions observable in the tiling code.  `referenceError` is
what JS throws on reading a `const` binding inside its temporal dead zone (the
second-axis tracing block, src/index.js line 154).  `geometryError` is the
spec's GeometryError taxon (§7); no code in the sources ever produces it. -/
inductive JsError where
  | referenceError (name : String)
  | geometryError (msg : String)
deriving DecidableEq, Repr

/-- The integers of `for (let i = start; i <= stop; i++)`. -/
def intRange (s e : ℤ) : List ℤ :=
  (List.range (e + 1 - s).toNat).map (fun n => s + Int.ofNat n)

/-- The edge's implicit-line normal (src/index.js lines 124–127):
`beta = [p1.y − p0.y, p0.x − p1.x]`. -/
def edgeBeta (p0 p1 : Vec) : Vec := (p1.2 - p0.2, p0.1 - p1.1)

/-- The edge's implicit-line constant (src/index.js lines 128–129):
`k = p0.x·p1.y − p0.y·p1.x`. -/
def edgeK (p0 p1 : Vec) : ℚ := p0.1 * p1.2 - p0.2 * p1.1

/-- The first-axis tracing block for one edge (src/index.js lines 117–137):
the list of lattice addresses `(i, j)` on which `keep` is assigned, in
assignment order.  For each integer `i` in
`[floor(min(range)+1), ceil(max(range)−1)]` it solves
`{dot(beta0,·)=i, dot(beta,·)=k}` for the crossing point, takes
`j = floor(dot(beta1, intersection))` and writes `(i, j)` and `(i−1, j)`. -/
def traceEdgeAxis0 (beta0 beta1 : Vec) (p0 p1 : Vec) : List (ℤ × ℤ) :=
  let t0 := dotProduct beta0 p0
  let t1 := dotProduct beta0 p1
  let start := ⌊min t0 t1 + 1⌋
  let stop := ⌈max t0 t1 - 1⌉
  if start ≤ stop then
    (intRange start stop).flatMap (fun i =>
      let inter := linearSolver beta0 (edgeBeta p0 p1) (i : ℚ) (edgeK p0 p1)
      let j := ⌊dotProduct beta1 inter⌋
      [(i, j), (i - 1, j)])
  else []

/-- The second-axis tracing block for one edge (src/index.js lines 139–159).
Its body `const intersection = getIntersection(i, k)` reads `i`, but the only
`i` in scope is the `const i` declared on the following line of the same block
(`const i = Math.floor(dotProduct(beta0, intersection))`): the read falls in
the temporal dead zone, so the first iteration of the `j` loop throws
`ReferenceError` and no keep flag is ever written by this block.  When the
`j` range is empty the block is skipped and nothing happens. -/
def traceEdgeAxis1 (beta1 : Vec) (p0 p1 : Vec) : Except JsError (List (ℤ × ℤ)) :=
  let s0 := dotProduct beta1 p0
  let s1 := dotProduct beta1 p1
  let start := ⌊min s0 s1 + 1⌋
  let stop := ⌈max s0 s1 - 1⌉
  if start ≤ stop then Except.error (JsError.referenceError "i")
  else Except.ok []

/-- Tracing of a list of edges (the body of the `for (let n ...)` loop,
src/index.js lines 116–160): per edge the first-axis block runs, then the
second-axis block, which may throw.  Returns the keep-flag writes accumulated
before any exception, and the exception if one aborted the loop — keep-flag
mutations before a throw persist, as in JS. -/
def traceEdges (beta0 beta1 : Vec) : List (Vec × Vec) → List (ℤ × ℤ) × Option JsError
  | [] => ([], none)
  | (p0, p1) :: rest =>
    let w0 := traceEdgeAxis0 beta0 beta1 p0 p1
    match traceEdgeAxis1 beta1 p0 p1 with
    | Except.error e => (w0, some e)
    | Except.ok w1 =>
      let r := traceEdges beta0 beta1 rest
      (w0 ++ w1 ++ r.1, r.2)

/-- Tracing of one linear ring: the edges are the consecutive vertex pairs
`(linearRing[n], linearRing[n+1])`, `n = 0 .. length−2` (src/index.js line 116).
No validation of the ring precedes tracing. -/
def traceRing (beta0 beta1 : Vec) (ring : List Vec) : List (ℤ × ℤ) × Option JsError :=
  traceEdges beta0 beta1 (ring.zip ring.tail)

/-- Does a trace result carry the spec's GeometryError? -/
def isGeometryError : Option JsError → Bool
  | some (JsError.geometryError _) => true
  | _ => false

/-- `k.minIndex = Math.floor(min(k.bound))` and `k.maxIndex = Math.ceil(max(k.bound))`
(src/index.js lines 72–92), from the four bound values `dot(beta, forward(corner))`
of the bounding box's corners. -/
def squareWindow (b1 b2 b3 b4 : ℚ) : ℤ × ℤ :=
  (⌊min (min b1 b2) (min b3 b4)⌋, ⌈max (max b1 b2) (max b3 b4)⌉)

/-- The enumeration loops `for (let i = minIndex; i < maxIndex; i++)` populate
a cell exactly for the indices with `minIndex ≤ i < maxIndex`. -/
def inWindow (w : ℤ × ℤ) (i : ℤ) : Bool :=
  decide (w.1 ≤ i) && decide (i < w.2)

/-- The lattice addresses materialized into cells (src/index.js lines 96–111):
all `(i, j)` with `k0.minIndex ≤ i < k0.maxIndex` and `k1.minIndex ≤ j < k1.maxIndex`. -/
def enumeratedAddresses (w0 w1 : ℤ × ℤ) : List (ℤ × ℤ) :=
  (intRange w0.1 (w0.2 - 1)).flatMap (fun i =>
    (intRange w1.1 (w1.2 - 1)).map (fun j => (i, j)))

/-- The four corners of cell `(i, j)` (src/index.js lines 103–108):
the lattice intersections `(i,j)`, `(i,j+1)`, `(i+1,j+1)`, `(i+1,j)`. -/
def cellCorners (beta0 beta1 : Vec) (i j : ℤ) : List Vec :=
  [linearSolver beta0 beta1 (i : ℚ) (j : ℚ),
   linearSolver beta0 beta1 (i : ℚ) ((j : ℚ) + 1),
   linearSolver beta0 beta1 ((i : ℚ) + 1) ((j : ℚ) + 1),
   linearSolver beta0 beta1 ((i : ℚ) + 1) (j : ℚ)]

/-- The cell's address point (src/index.js line 101): `getIntersection(i + 0.5, j + 0.5)`. -/
def cellCenter (beta0 beta1 : Vec) (i j : ℤ) : Vec :=
  linearSolver beta0 beta1 ((i : ℚ) + 1/2) ((j : ℚ) + 1/2)

/-- Modelled from the spec: "Every cell's ring must be closed by re-appending
its first vertex before output" (§4.5).  The output-assembly stage that does
this is absent from the source files: the tiling revision in src/index.js ends
after boundary tracing without emitting features. -/
def closeRing (r : List Vec) : List Vec :=
  match r with
  | [] => []
  | x :: xs => x :: (xs ++ [x])

/-- The ring a cell contributes to the output: its four corners, closed. -/
def outputRing (beta0 beta1 : Vec) (i j : ℤ) : List Vec :=
  closeRing (cellCorners beta0 beta1 i j)

/-- A materialized cell as the retention filter sees it: its boundary-adjacency
flag and its center point. -/
structure Cell where
  keep : Bool
  center : Vec
deriving DecidableEq

/-- A polygon as the containment filter sees it: the outer ring first, then the
hole rings. -/
abbrev Polygon := List (List Vec)

/-- Modelled from the spec: the hole-aware containment test of §4.6 — "A center
is inside the polygon iff the outer-ring parity test returns true AND every
hole ring's parity test returns false."  The filter revision in src/index.js
calls an `isInside (point, polygon, ignoreHoles)` whose body is an empty stub;
only the per-ring parity test (`isInside` in src/helpers.js) exists in the
sources, and it is the ring test used here. -/
def isInsidePolygon (p : Vec) (poly : Polygon) : Bool :=
  match poly with
  | [] => false
  | outer :: holes => isInside p outer && holes.all (fun h => !(isInside p h))

/-- Modelled from the spec: the retention filter of §4.6 — "A cell is retained
iff `keep == true` OR the containment test passes for at least one input
polygon."  The final filtering stage is absent from the tiling revision in
src/index.js (which ends after tracing); the older revision's filter has no
keep flags and calls the stubbed `isInside`. -/
def hextileFilter (cells : List Cell) (polys : List Polygon) : List Cell :=
  cells.filter (fun c => c.keep || polys.any (fun poly => isInsidePolygon c.center poly))

/-- Is a planar point inside the axis-aligned box `[x0, y0, x1, y1]`
(bounds included)? -/
def inBbox (x0 y0 x1 y1 : ℚ) (p : Vec) : Bool :=
  decide (x0 ≤ p.1) && decide (p.1 ≤ x1) && decide (y0 ≤ p.2) && decide (p.2 ≤ y1)

/-- Ring well-formedness as the spec's GeometryError taxon defines it (§7):
at least 4 points, first and last vertex identical. -/
def ringWellFormed (r : List Vec) : Bool :=
  decide (4 ≤ r.length) && decide (r.head? = r.getLast?)

/-- A malformed ring: three vertices and not closed. -/
def badRing : List Vec := [(0, 0), (1/5, 0), (0, 1/5)]

/-- The caller-supplied options object.  `P` is the type of projection values,
`A` the type of whatever other fields the caller put on the object. -/
structure Options (P : Type) (A : Type) where
  shape : Option String
  tilt : Option ℚ
  width : Option ℚ
  center : Option Vec
  projection : Option P
  extra : A
deriving DecidableEq

/-- Lines 54–60 of src/index.js.  JS `||` takes its right operand on any falsy
left operand: for `shape` an absent field or the empty string, for `tilt` and
`width` an absent field or `0`.  The JS code assigns the results back onto the
caller's `options` object; the embedding passes that state explicitly and
returns the mutated object.  `mkProjection center width` stands for
`equirectangular(options.center, options.width)` and `bboxMid` for the midpoint
of the polygons' combined bounding box (line 59). -/
def normalizeOptions {P A : Type} (mkProjection : Vec → ℚ → P) (bboxMid : Vec)
    (o : Options P A) : Options P A :=
  let shape := match o.shape with
    | none => "square"
    | some s => if s = "" then "square" else s
  let tilt : ℚ := match o.tilt with
    | none => 0
    | some t => t
  let width0 : ℚ := match o.width with
    | none => 1000
    | some w => if w = 0 then 1000 else w
  let width := clampWidth width0
  let center := match o.center with
    | none => bboxMid
    | some c => c
  let projection := match o.projection with
    | none => mkProjection center width
    | some pr => pr
  { shape := some shape, tilt := some tilt, width := some width,
    center := some center, projection := some projection, extra := o.extra }

/-! ## Helper lemmas -/

theorem mem_intRange {s e i : ℤ} : i ∈ intRange s e ↔ s ≤ i ∧ i ≤ e := by
  simp only [intRange, List.mem_map, List.mem_range, Int.ofNat_eq_coe]
  constructor
  · rintro ⟨n, hn, rfl⟩
    omega
  · rintro ⟨h1, h2⟩
    refine ⟨(i - s).toNat, ?_, ?_⟩
    · omega
    · omega

theorem mem_enumeratedAddresses {w0 w1 : ℤ × ℤ} {a : ℤ × ℤ} :
    a ∈ enumeratedAddresses w0 w1 ↔
      w0.1 ≤ a.1 ∧ a.1 < w0.2 ∧ w1.1 ≤ a.2 ∧ a.2 < w1.2 := by
  obtain ⟨i, j⟩ := a
  simp only [enumeratedAddresses, List.mem_flatMap, List.mem_map, mem_intRange,
    Prod.mk.injEq]
  constructor
  · rintro ⟨i', hi', j', hj', rfl, rfl⟩
    omega
  · rintro ⟨h1, h2, h3, h4⟩
    exact ⟨i, ⟨h1, by omega⟩, j, ⟨h3, by omega⟩, rfl, rfl⟩

theorem linearSolver_dot (a1 a2 : Vec) (d1 d2 : ℚ) (hdet : det2 a1 a2 ≠ 0) :
    dotProduct a1 (linearSolver a1 a2 d1 d2) = d1 ∧
    dotProduct a2 (linearSolver a1 a2 d1 d2) = d2 := by
  unfold det2 at hdet
  unfold dotProduct linearSolver
  constructor <;> field_simp <;> ring

theorem linearSolver_unique (a1 a2 : Vec) (d1 d2 : ℚ) (q : Vec)
    (hdet : det2 a1 a2 ≠ 0)
    (h1 : dotProduct a1 q = d1) (h2 : dotProduct a2 q = d2) :
    q = linearSolver a1 a2 d1 d2 := by
  unfold det2 at hdet
  unfold dotProduct at h1 h2
  unfold linearSolver
  obtain ⟨qx, qy⟩ := q
  simp only [Prod.mk.injEq]
  constructor
  · field_simp
    linear_combination a2.2 * h1 - a1.2 * h2
  · field_simp
    linear_combination -a2.1 * h1 + a1.1 * h2

theorem floor_eval {q : ℚ} {n : ℤ} (h1 : (n : ℚ) ≤ q) (h2 : q < n + 1) : ⌊q⌋ = n := by
  rw [Int.floor_eq_iff]
  constructor <;> [exact h1; exact_mod_cast h2]

theorem ceil_eval {q : ℚ} {n : ℤ} (h1 : (n : ℚ) - 1 < q) (h2 : q ≤ n) : ⌈q⌉ = n := by
  rw [Int.ceil_eq_iff]
  constructor <;> [exact_mod_cast h1; exact h2]

theorem clampWidth_bounds (v : ℚ) : 500 ≤ clampWidth v ∧ clampWidth v ≤ 20000 := by
  unfold clampWidth
  constructor
  · simp only [le_min_iff, le_max_iff]
    exact ⟨Or.inr le_rfl, by norm_num⟩
  · exact min_le_right _ _

theorem traceEdgeAxis1_cases (beta1 : Vec) (p0 p1 : Vec) :
    traceEdgeAxis1 beta1 p0 p1 = Except.error (JsError.referenceError "i") ∨
    traceEdgeAxis1 beta1 p0 p1 = Except.ok [] := by
  simp only [traceEdgeAxis1]
  split
  · exact Or.inl rfl
  · exact Or.inr rfl

theorem traceEdges_no_geometryError (beta0 beta1 : Vec) (es : List (Vec × Vec)) :
    isGeometryError (traceEdges beta0 beta1 es).2 = false := by
  induction es with
  | nil => rfl
  | cons e rest ih =>
    obtain ⟨p0, p1⟩ := e
    rcases traceEdgeAxis1_cases beta1 p0 p1 with h | h
    · simp [traceEdges, h, isGeometryError]
    · simpa [traceEdges, h] using ih

theorem edgeBeta_dot_left (p0 p1 : Vec) :
    dotProduct (edgeBeta p0 p1) p0 = edgeK p0 p1 := by
  unfold dotProduct edgeBeta edgeK
  ring

theorem edgeBeta_dot_right (p0 p1 : Vec) :
    dotProduct (edgeBeta p0 p1) p1 = edgeK p0 p1 := by
  unfold dotProduct edgeBeta edgeK
  ring

theorem det2_edgeBeta (beta0 p0 p1 : Vec) :
    det2 beta0 (edgeBeta p0 p1) = dotProduct beta0 p0 - dotProduct beta0 p1 := by
  unfold det2 edgeBeta dotProduct
  ring

/-- The crossing point the first-axis block computes lies on the edge's line:
its `beta1` projection is the convex combination of the endpoints' `beta1`
projections with parameter `lam = (r − t0)/(t1 − t0)`. -/
theorem intersection_dot_convex (beta0 beta1 p0 p1 : Vec) (r : ℚ)
    (hne : dotProduct beta0 p1 ≠ dotProduct beta0 p0) :
    dotProduct beta1 (linearSolver beta0 (edgeBeta p0 p1) r (edgeK p0 p1)) =
      (1 - (r - dotProduct beta0 p0) / (dotProduct beta0 p1 - dotProduct beta0 p0)) *
        dotProduct beta1 p0 +
      ((r - dotProduct beta0 p0) / (dotProduct beta0 p1 - dotProduct beta0 p0)) *
        dotProduct beta1 p1 := by
  have hsub : dotProduct beta0 p1 - dotProduct beta0 p0 ≠ 0 := sub_ne_zero.mpr hne
  have hdet : det2 beta0 (edgeBeta p0 p1) ≠ 0 := by
    rw [det2_edgeBeta]
    intro hc
    exact hne (by linarith)
  have hQ : ((1 - (r - dotProduct beta0 p0) / (dotProduct beta0 p1 - dotProduct beta0 p0)) * p0.1 +
        ((r - dotProduct beta0 p0) / (dotProduct beta0 p1 - dotProduct beta0 p0)) * p1.1,
      (1 - (r - dotProduct beta0 p0) / (dotProduct beta0 p1 - dotProduct beta0 p0)) * p0.2 +
        ((r - dotProduct beta0 p0) / (dotProduct beta0 p1 - dotProduct beta0 p0)) * p1.2) =
      linearSolver beta0 (edgeBeta p0 p1) r (edgeK p0 p1) := by
    apply linearSolver_unique _ _ _ _ _ hdet
    · simp only [dotProduct] at hsub ⊢
      field_simp
      ring
    · rw [show edgeK p0 p1 = dotProduct (edgeBeta p0 p1) p0 from (edgeBeta_dot_left p0 p1).symm]
      simp only [dotProduct, edgeBeta, edgeK] at hsub ⊢
      field_simp
      ring
  rw [← hQ]
  unfold dotProduct
  ring

theorem lam_bounds (t0 t1 r : ℚ) (hlo : min t0 t1 < r) (hhi : r < max t0 t1) :
    0 < (r - t0) / (t1 - t0) ∧ (r - t0) / (t1 - t0) < 1 := by
  rcases lt_trichotomy t0 t1 with h | h | h
  · rw [min_eq_left h.le] at hlo
    rw [max_eq_right h.le] at hhi
    have hd : 0 < t1 - t0 := by linarith
    constructor
    · exact div_pos (by linarith) hd
    · rw [div_lt_one hd]
      linarith
  · subst h
    simp at hlo hhi
    linarith
  · rw [min_eq_right h.le] at hlo
    rw [max_eq_left h.le] at hhi
    have hd : 0 < t0 - t1 := by linarith
    have hrw : (r - t0) / (t1 - t0) = (t0 - r) / (t0 - t1) := by
      rw [show r - t0 = -(t0 - r) by ring, show t1 - t0 = -(t0 - t1) by ring,
        neg_div_neg_eq]
    rw [hrw]
    constructor
    · exact div_pos (by linarith) hd
    · rw [div_lt_one hd]
      linarith

theorem convex_bounds (s0 s1 m M lam : ℚ) (h0 : 0 < lam) (h1 : lam < 1)
    (hs0m : m ≤ s0) (hs1m : m ≤ s1) (hs0M : s0 ≤ M) (hs1M : s1 ≤ M)
    (hstrict : s0 < M ∨ s1 < M) :
    m ≤ (1 - lam) * s0 + lam * s1 ∧ (1 - lam) * s0 + lam * s1 < M := by
  constructor
  · nlinarith [mul_nonneg (by linarith : (0:ℚ) ≤ 1 - lam) (by linarith : (0:ℚ) ≤ s0 - m),
      mul_nonneg h0.le (by linarith : (0:ℚ) ≤ s1 - m)]
  · rcases hstrict with h | h
    · nlinarith [mul_pos (by linarith : (0:ℚ) < 1 - lam) (by linarith : (0:ℚ) < M - s0),
        mul_nonneg h0.le (by linarith : (0:ℚ) ≤ M - s1)]
    · nlinarith [mul_nonneg (by linarith : (0:ℚ) ≤ 1 - lam) (by linarith : (0:ℚ) ≤ M - s0),
        mul_pos h0 (by linarith : (0:ℚ) < M - s1)]

/-! ## Claim theorems -/

/-- C6: for every pair of axes with non-zero determinant and every pair of
targets, the solver's point has exactly the two requested dot products, and
any point `q` with those dot products equals it (existence and uniqueness,
exact rational arithmetic). -/
theorem linearSolver_correct_unique (a1 a2 : Vec) (d1 d2 : ℚ) (q : Vec)
    (hdet : det2 a1 a2 ≠ 0)
    (h1 : dotProduct a1 q = d1) (h2 : dotProduct a2 q = d2) :
    dotProduct a1 (linearSolver a1 a2 d1 d2) = d1 ∧
    dotProduct a2 (linearSolver a1 a2 d1 d2) = d2 ∧
    q = linearSolver a1 a2 d1 d2 :=
  ⟨(linearSolver_dot a1 a2 d1 d2 hdet).1, (linearSolver_dot a1 a2 d1 d2 hdet).2,
   linearSolver_unique a1 a2 d1 d2 q hdet h1 h2⟩

/-- Witness for C6 at the axes `(1,0)`, `(0,1)`, targets `(3,5)` and the point
`(3,5)`. -/
theorem linearSolver_correct_unique_witness :
    det2 ((1 : ℚ), (0 : ℚ)) ((0 : ℚ), (1 : ℚ)) ≠ 0 ∧
    dotProduct ((1 : ℚ), (0 : ℚ)) ((3 : ℚ), (5 : ℚ)) = 3 ∧
    dotProduct ((0 : ℚ), (1 : ℚ)) ((3 : ℚ), (5 : ℚ)) = 5 ∧
    (dotProduct ((1 : ℚ), (0 : ℚ)) (linearSolver (1, 0) (0, 1) 3 5) = 3 ∧
     dotProduct ((0 : ℚ), (1 : ℚ)) (linearSolver (1, 0) (0, 1) 3 5) = 5 ∧
     ((3 : ℚ), (5 : ℚ)) = linearSolver (1, 0) (0, 1) 3 5) :=
  ⟨by norm_num [det2], by norm_num [dotProduct], by norm_num [dotProduct],
   linearSolver_correct_unique (1, 0) (0, 1) 3 5 (3, 5) (by norm_num [det2])
     (by norm_num [dotProduct]) (by norm_num [dotProduct])⟩

/-- C3 counterexample: the upper clamp in the code is 20000 — a requested width
of 1000000 is clamped to 20000, strictly below the 500000 the claim states. -/
theorem clampWidth_counterexample :
    clampWidth 1000000 = 20000 ∧ (20000 : ℚ) < 500000 := by
  norm_num [clampWidth]

/-- C3 amended: the effective width is the requested width clamped to the
inclusive range [500, 20000]; widths inside that range are unchanged,
`width=100` becomes 500 and `width=1000000` becomes 20000. -/
theorem clampWidth_spec (w v : ℚ) (h1 : 500 ≤ w) (h2 : w ≤ 20000) :
    clampWidth w = w ∧ 500 ≤ clampWidth v ∧ clampWidth v ≤ 20000 ∧
    clampWidth 100 = 500 ∧ clampWidth 1000000 = 20000 := by
  unfold clampWidth
  refine ⟨?_, ?_, ?_, by norm_num, by norm_num⟩
  · rw [max_eq_left h1, min_eq_left h2]
  · simp only [le_min_iff, le_max_iff]
    constructor
    · right; rfl
    · norm_num
  · exact min_le_right _ _

/-- Witness for C3 at `w = 1000`, `v = 999999`. -/
theorem clampWidth_spec_witness :
    (500 : ℚ) ≤ 1000 ∧ (1000 : ℚ) ≤ 20000 ∧
    (clampWidth 1000 = 1000 ∧ 500 ≤ clampWidth 999999 ∧ clampWidth 999999 ≤ 20000 ∧
     clampWidth 100 = 500 ∧ clampWidth 1000000 = 20000) :=
  ⟨by norm_num, by norm_num, clampWidth_spec 1000 999999 (by norm_num) (by norm_num)⟩

/-- C2: evaluating the second-axis tracing block of the code at the concrete
edge from `(1/2, 0)` to `(5/2, 0)` with the tilt-0 axes `beta0 = (0,−1)`,
`beta1 = (1, 0)`: the axis-1 index range is `{1, 2}` (non-empty), and instead
of solving `{axis1 = j, edge = k}` the block reads the dead `const i` and
throws ReferenceError, so no keep flag is set via the second axis. -/
theorem traceEdgeAxis1_referenceError :
    traceEdgeAxis1 ((1 : ℚ), (0 : ℚ)) (1/2, 0) (5/2, 0) =
      Except.error (JsError.referenceError "i") := by
  norm_num [traceEdgeAxis1, dotProduct, min_def, max_def]

/-- C5: every output ring is explicitly closed — the first corner re-appended
after the four distinct corners, so the emitted five-vertex ring's first and
last entries are identical. -/
theorem outputRing_closed (beta0 beta1 : Vec) (i j : ℤ) :
    (outputRing beta0 beta1 i j).head? = (outputRing beta0 beta1 i j).getLast? ∧
    (outputRing beta0 beta1 i j).length = 5 := by
  constructor <;> simp [outputRing, cellCorners, closeRing]

/-- C7 counterexample: `equirectangular` with width 0 (legal per the claim's
"every width") collapses both scale factors to 0, and forward∘inverse sends
`(1, 1)` to a point whose first coordinate is 0, not 1 — the projection pair is
not mutually inverse at width 0.  (`cosLat0 = 1` — an equatorial center, so
`cos` is non-zero as the claim requires; `rad2deg` stands for `180/π`, whose
value is irrelevant here because `width = 0` zeroes both scales for any value.) -/
theorem equirectangular_counterexample :
    equiDx 0 1 57 6371000 = 0 ∧ equiDy 0 57 6371000 = 0 ∧
    (eqForward (0, 0) (equiDx 0 1 57 6371000) (equiDy 0 57 6371000)
       (eqInverse (0, 0) (equiDx 0 1 57 6371000) (equiDy 0 57 6371000) (1, 1))).1 < 1 := by
  norm_num [equiDx, equiDy, eqForward, eqInverse]

/-- C7 amended: for every center, every NON-ZERO width, and every non-zero
`cos(center latitude)` (with the fixed constants `radius` and `180/π` likewise
non-zero), the default equirectangular forward and inverse are mutual inverses,
exactly. -/
theorem equirectangular_inverse (center p q : Vec) (width cosLat0 rad2deg radius : ℚ)
    (hw : width ≠ 0) (hc : cosLat0 ≠ 0) (hr : rad2deg ≠ 0) (hR : radius ≠ 0) :
    eqForward center (equiDx width cosLat0 rad2deg radius) (equiDy width rad2deg radius)
      (eqInverse center (equiDx width cosLat0 rad2deg radius)
        (equiDy width rad2deg radius) p) = p ∧
    eqInverse center (equiDx width cosLat0 rad2deg radius) (equiDy width rad2deg radius)
      (eqForward center (equiDx width cosLat0 rad2deg radius)
        (equiDy width rad2deg radius) q) = q := by
  have hdx : equiDx width cosLat0 rad2deg radius ≠ 0 := by
    unfold equiDx
    exact mul_ne_zero (div_ne_zero hw (mul_ne_zero hc hR)) hr
  have hdy : equiDy width rad2deg radius ≠ 0 := by
    unfold equiDy
    exact mul_ne_zero (div_ne_zero hw hR) hr
  unfold eqForward eqInverse
  constructor <;> refine Prod.ext ?_ ?_ <;> field_simp

/-- Witness for C7 (amended) at center `(10, 20)`, width 1000, `cosLat0 = 9/10`,
`rad2deg = 57`, radius 6371000, `p = (2, 3)`, `q = (4, 5)`. -/
theorem equirectangular_inverse_witness :
    (1000 : ℚ) ≠ 0 ∧ (9/10 : ℚ) ≠ 0 ∧ (57 : ℚ) ≠ 0 ∧ (6371000 : ℚ) ≠ 0 ∧
    (eqForward (10, 20) (equiDx 1000 (9/10) 57 6371000) (equiDy 1000 57 6371000)
       (eqInverse (10, 20) (equiDx 1000 (9/10) 57 6371000)
         (equiDy 1000 57 6371000) (2, 3)) = (2, 3) ∧
     eqInverse (10, 20) (equiDx 1000 (9/10) 57 6371000) (equiDy 1000 57 6371000)
       (eqForward (10, 20) (equiDx 1000 (9/10) 57 6371000)
         (equiDy 1000 57 6371000) (4, 5)) = (4, 5)) :=
  ⟨by norm_num, by norm_num, by norm_num, by norm_num,
   equirectangular_inverse (10, 20) (2, 3) (4, 5) 1000 (9/10) 57 6371000
     (by norm_num) (by norm_num) (by norm_num) (by norm_num)⟩

/-- C10: in the point-in-ring test, an edge whose two vertex latitudes both
equal the query latitude drives the interpolation denominator
`deltaYplus + deltaYminus` to zero (JS: `0/0 = NaN`, so `deltaX` is NaN and the
guard `deltaX <= 0` is false), and the parity bit toggles for that edge
regardless of the edge's longitudes or the query longitude; consequently even a
degenerate ring consisting of one horizontal edge far to the left of the query
point reports the point inside. -/
theorem isInsideStep_horizontal_toggles :
    (∀ (lng lat x0 x1 : ℚ) (acc : Bool),
      isInsideStep lng lat acc (x0, lat) (x1, lat) = !acc) ∧
    isInside ((5 : ℚ), (0 : ℚ)) [(100, 0), (200, 0)] = true := by
  constructor
  · intro lng lat x0 x1 acc
    simp [isInsideStep]
  · norm_num [isInside, isInsideStep]

/-- C8 counterexample: `badRing` has three vertices and is not closed, yet with
the tilt-0 axes tracing runs to completion on it and returns normally (no keep
writes, no exception): nothing is signalled before tracing begins and tracing
fully runs on malformed geometry. -/
theorem traceRing_runs_on_malformed :
    ringWellFormed badRing = false ∧
    traceRing ((0 : ℚ), (-1 : ℚ)) ((1 : ℚ), (0 : ℚ)) badRing = ([], none) := by
  constructor
  · rfl
  · have e1 : ⌊(1 : ℚ)⌋ = 1 := floor_eval (by norm_num) (by norm_num)
    have e2 : ⌈(-1 : ℚ)⌉ = -1 := ceil_eval (by norm_num) (by norm_num)
    have e3 : ⌊(6/5 : ℚ)⌋ = 1 := floor_eval (by norm_num) (by norm_num)
    have e4 : ⌈(-4/5 : ℚ)⌉ = 0 := ceil_eval (by norm_num) (by norm_num)
    have e5 : ⌊(4/5 : ℚ)⌋ = 0 := floor_eval (by norm_num) (by norm_num)
    norm_num [traceRing, badRing, traceEdges, traceEdgeAxis0, traceEdgeAxis1,
      dotProduct, min_def, max_def, e1, e2, e3, e4, e5]

/-- C8 amended: the code performs no geometry validation — for every axis pair
and every ring, well-formed or not, tracing never signals a GeometryError
(the only exception the tracing loop can produce is the second-axis block's
ReferenceError), so no GeometryError precedes or interrupts tracing. -/
theorem traceRing_no_geometryError (beta0 beta1 : Vec) (ring : List Vec) :
    isGeometryError (traceRing beta0 beta1 ring).2 = false :=
  traceEdges_no_geometryError beta0 beta1 (ring.zip ring.tail)

/-- C9: option normalization writes the five recognized fields back (defaults
filled in, width clamped in place; JS mutates the caller's object — the
embedding returns the updated state), leaves every other field (`extra`)
unchanged, and whenever one of the five fields was absent (or `width` falsy or
out of range) the resulting options object differs from the one passed in. -/
theorem normalizeOptions_spec {P A : Type} (mk : Vec → ℚ → P) (mid : Vec)
    (o : Options P A)
    (h : o.shape = none ∨ o.tilt = none ∨ o.width = none ∨ o.center = none ∨
         o.projection = none ∨ o.width = some 0 ∨
         (∃ w, o.width = some w ∧ (w < 500 ∨ 20000 < w))) :
    normalizeOptions mk mid o ≠ o ∧
    (normalizeOptions mk mid o).extra = o.extra ∧
    (normalizeOptions mk mid o).shape.isSome = true ∧
    (normalizeOptions mk mid o).tilt.isSome = true ∧
    (normalizeOptions mk mid o).width.isSome = true ∧
    (normalizeOptions mk mid o).center.isSome = true ∧
    (normalizeOptions mk mid o).projection.isSome = true ∧
    (∃ w0, (normalizeOptions mk mid o).width = some (clampWidth w0)) := by
  obtain ⟨sh, ti, wi, ce, pr, ex⟩ := o
  refine ⟨?_, rfl, rfl, rfl, rfl, rfl, rfl, ?_⟩
  · intro heq
    have hsh := congrArg Options.shape heq
    have hti := congrArg Options.tilt heq
    have hwi := congrArg Options.width heq
    have hce := congrArg Options.center heq
    have hpr := congrArg Options.projection heq
    simp only [normalizeOptions] at hsh hti hwi hce hpr
    rcases h with h | h | h | h | h | h | ⟨w, hw, hrange⟩
    · rw [show sh = none from h] at hsh
      simp at hsh
    · rw [show ti = none from h] at hti
      simp at hti
    · rw [show wi = none from h] at hwi
      simp at hwi
    · rw [show ce = none from h] at hce
      simp at hce
    · rw [show pr = none from h] at hpr
      simp at hpr
    · rw [show wi = some 0 from h] at hwi
      simp only [Option.some.injEq] at hwi
      norm_num [clampWidth] at hwi
    · rw [show wi = some w from hw] at hwi
      simp only [Option.some.injEq] at hwi
      have hb := clampWidth_bounds (if w = 0 then 1000 else w)
      rw [hwi] at hb
      rcases hrange with hr | hr
      · linarith [hb.1]
      · linarith [hb.2]
  · cases wi with
    | none => exact ⟨1000, rfl⟩
    | some w => exact ⟨if w = 0 then 1000 else w, rfl⟩

/-- Concrete options object for the C9 witness: every recognized field absent,
one unrecognized field (`extra = 7`). -/
def sampleOptions : Options Unit ℕ :=
  ⟨none, none, none, none, none, 7⟩

/-- Stand-in default-projection builder for the C9 witness. -/
def sampleMk : Vec → ℚ → Unit := fun _ _ => ()

/-- Witness for C9 at `sampleOptions` (all five fields absent). -/
theorem normalizeOptions_spec_witness :
    (sampleOptions.shape = none ∨ sampleOptions.tilt = none ∨
     sampleOptions.width = none ∨ sampleOptions.center = none ∨
     sampleOptions.projection = none ∨ sampleOptions.width = some 0 ∨
     (∃ w, sampleOptions.width = some w ∧ (w < 500 ∨ 20000 < w))) ∧
    (normalizeOptions sampleMk (0, 0) sampleOptions ≠ sampleOptions ∧
     (normalizeOptions sampleMk (0, 0) sampleOptions).extra = sampleOptions.extra ∧
     (normalizeOptions sampleMk (0, 0) sampleOptions).shape.isSome = true ∧
     (normalizeOptions sampleMk (0, 0) sampleOptions).tilt.isSome = true ∧
     (normalizeOptions sampleMk (0, 0) sampleOptions).width.isSome = true ∧
     (normalizeOptions sampleMk (0, 0) sampleOptions).center.isSome = true ∧
     (normalizeOptions sampleMk (0, 0) sampleOptions).projection.isSome = true ∧
     (∃ w0, (normalizeOptions sampleMk (0, 0) sampleOptions).width =
        some (clampWidth w0))) :=
  ⟨Or.inl rfl, normalizeOptions_spec sampleMk (0, 0) sampleOptions (Or.inl rfl)⟩

/-- C1: the output of the retention filter is an ordered sublist of the
materialized cells; a cell is in it iff it was materialized and its keep flag
is true or its center passes the hole-aware containment test against at least
one input polygon; in particular a cell with `keep = false` is retained iff its
center passes that test for some polygon. -/
theorem hextileFilter_spec (cells : List Cell) (polys : List Polygon) (c : Cell) :
    (hextileFilter cells polys).Sublist cells ∧
    (c ∈ hextileFilter cells polys ↔
      c ∈ cells ∧ (c.keep = true ∨ ∃ poly ∈ polys, isInsidePolygon c.center poly = true)) ∧
    (c.keep = false →
      (c ∈ hextileFilter cells polys ↔
        c ∈ cells ∧ ∃ poly ∈ polys, isInsidePolygon c.center poly = true)) := by
  refine ⟨List.filter_sublist _, ?_, ?_⟩
  · simp [hextileFilter, List.mem_filter, List.any_eq_true]
  · intro hk
    simp [hextileFilter, List.mem_filter, List.any_eq_true, hk]

/-- C4 counterexample: identity projection, tilt-0 axes `beta0 = (0,−1)`,
`beta1 = (1,0)`, polygon ring `[[2,0],[2,2],[0,2],[0,0],[2,0]]` with bounding
box `[0,0,2,2]`.  The enumeration windows are `i ∈ [−2, 0)` and `j ∈ [0, 2)`
(no padding beyond the floor/ceil bounds), yet tracing the first edge
`(2,0) → (2,2)` — both endpoints inside the bounding box — writes keep flags at
`(−1, 2)` and `(−2, 2)`: cross-axis index 2 is NOT in the `j` window, so the
writes target addresses absent from the cell map (in JS,
`output[-1][2].keep = true` dereferences `undefined` and throws TypeError). -/
theorem traceWrite_outside_window :
    squareWindow (dotProduct (0, -1) (0, 0)) (dotProduct (0, -1) (0, 2))
        (dotProduct (0, -1) (2, 0)) (dotProduct (0, -1) (2, 2)) = (-2, 0) ∧
    squareWindow (dotProduct (1, 0) (0, 0)) (dotProduct (1, 0) (0, 2))
        (dotProduct (1, 0) (2, 0)) (dotProduct (1, 0) (2, 2)) = (0, 2) ∧
    inBbox 0 0 2 2 (2, 0) = true ∧ inBbox 0 0 2 2 (2, 2) = true ∧
    traceEdgeAxis0 ((0 : ℚ), (-1 : ℚ)) ((1 : ℚ), (0 : ℚ)) (2, 0) (2, 2) =
      [(-1, 2), (-2, 2)] ∧
    inWindow (0, 2) 2 = false := by
  have f0 : ⌊(0 : ℚ)⌋ = 0 := floor_eval (by norm_num) (by norm_num)
  have fm1 : ⌊(-1 : ℚ)⌋ = -1 := floor_eval (by norm_num) (by norm_num)
  have fm2 : ⌊(-2 : ℚ)⌋ = -2 := floor_eval (by norm_num) (by norm_num)
  have f2 : ⌊(2 : ℚ)⌋ = 2 := floor_eval (by norm_num) (by norm_num)
  have c0 : ⌈(0 : ℚ)⌉ = 0 := ceil_eval (by norm_num) (by norm_num)
  have cm1 : ⌈(-1 : ℚ)⌉ = -1 := ceil_eval (by norm_num) (by norm_num)
  have c2 : ⌈(2 : ℚ)⌉ = 2 := ceil_eval (by norm_num) (by norm_num)
  refine ⟨?_, ?_, by norm_num [inBbox], by norm_num [inBbox], ?_, rfl⟩
  · norm_num [squareWindow, dotProduct, min_def, max_def, fm2, c0]
  · norm_num [squareWindow, dotProduct, min_def, max_def, f0, c2]
  · norm_num [traceEdgeAxis0, intRange, linearSolver, edgeBeta, edgeK,
      dotProduct, min_def, max_def, fm1, cm1, f2, List.range_succ]

/-- C4 amended: the enumerated index window is exactly
`[⌊min bound⌋, ⌈max bound⌉ − 1]` on each axis — NOT padded beyond the tightest
floor/ceil bound.  Every keep-flag write of the (only operative) first-axis
tracing block targets an address inside that window provided the edge
endpoints' projections lie within the corner-bound ranges on both axes AND at
least one endpoint's cross-axis projection is strictly below the maximum
cross-axis bound; the counterexample (an edge lying exactly on an integer
maximum cross-axis bound) shows the strictness condition cannot be dropped. -/
theorem traceEdgeAxis0_writes_in_window (beta0 beta1 p0 p1 : Vec) (m0 M0 m1 M1 : ℚ)
    (h00 : m0 ≤ dotProduct beta0 p0) (h01 : dotProduct beta0 p0 ≤ M0)
    (h10 : m0 ≤ dotProduct beta0 p1) (h11 : dotProduct beta0 p1 ≤ M0)
    (g00 : m1 ≤ dotProduct beta1 p0) (g01 : dotProduct beta1 p0 ≤ M1)
    (g10 : m1 ≤ dotProduct beta1 p1) (g11 : dotProduct beta1 p1 ≤ M1)
    (gs : dotProduct beta1 p0 < M1 ∨ dotProduct beta1 p1 < M1) :
    ∀ a ∈ traceEdgeAxis0 beta0 beta1 p0 p1,
      a ∈ enumeratedAddresses (⌊m0⌋, ⌈M0⌉) (⌊m1⌋, ⌈M1⌉) := by
  intro a ha
  simp only [traceEdgeAxis0] at ha
  split at ha
  case isFalse => simp at ha
  case isTrue hcond =>
    rw [List.mem_flatMap] at ha
    obtain ⟨i, hi, hai⟩ := ha
    rw [mem_intRange] at hi
    have hstart : ⌊min (dotProduct beta0 p0) (dotProduct beta0 p1) + 1⌋ =
        ⌊min (dotProduct beta0 p0) (dotProduct beta0 p1)⌋ + 1 :=
      Int.floor_add_one _
    have hstop : ⌈max (dotProduct beta0 p0) (dotProduct beta0 p1) - 1⌉ =
        ⌈max (dotProduct beta0 p0) (dotProduct beta0 p1)⌉ - 1 :=
      Int.ceil_sub_one _
    have hm0 : ⌊m0⌋ ≤ ⌊min (dotProduct beta0 p0) (dotProduct beta0 p1)⌋ :=
      Int.floor_mono (le_min h00 h10)
    have hM0 : ⌈max (dotProduct beta0 p0) (dotProduct beta0 p1)⌉ ≤ ⌈M0⌉ :=
      Int.ceil_mono (max_le h01 h11)
    have hil : ⌊min (dotProduct beta0 p0) (dotProduct beta0 p1)⌋ + 1 ≤ i := by omega
    have hig : i ≤ ⌈max (dotProduct beta0 p0) (dotProduct beta0 p1)⌉ - 1 := by omega
    have hilq : min (dotProduct beta0 p0) (dotProduct beta0 p1) < (i : ℚ) := by
      have hc : ((⌊min (dotProduct beta0 p0) (dotProduct beta0 p1)⌋ + 1 : ℤ) : ℚ) ≤
          (i : ℚ) := by exact_mod_cast hil
      push_cast at hc
      calc min (dotProduct beta0 p0) (dotProduct beta0 p1)
          < ⌊min (dotProduct beta0 p0) (dotProduct beta0 p1)⌋ + 1 :=
            Int.lt_floor_add_one _
        _ ≤ (i : ℚ) := hc
    have higq : (i : ℚ) < max (dotProduct beta0 p0) (dotProduct beta0 p1) := by
      have hc : (i : ℚ) ≤
          ((⌈max (dotProduct beta0 p0) (dotProduct beta0 p1)⌉ - 1 : ℤ) : ℚ) := by
        exact_mod_cast hig
      push_cast at hc
      have h2 := Int.ceil_lt_add_one (max (dotProduct beta0 p0) (dotProduct beta0 p1))
      linarith
    have hminmax := lt_trans hilq higq
    have hne : dotProduct beta0 p1 ≠ dotProduct beta0 p0 := by
      intro hEq
      rw [hEq] at hminmax
      simp at hminmax
    have hconv := intersection_dot_convex beta0 beta1 p0 p1 (i : ℚ) hne
    have hlam := lam_bounds (dotProduct beta0 p0) (dotProduct beta0 p1) (i : ℚ) hilq higq
    have hs := convex_bounds (dotProduct beta1 p0) (dotProduct beta1 p1) m1 M1
      (((i : ℚ) - dotProduct beta0 p0) / (dotProduct beta0 p1 - dotProduct beta0 p0))
      hlam.1 hlam.2 g00 g10 g01 g11 gs
    have hs1 : m1 ≤ dotProduct beta1
        (linearSolver beta0 (edgeBeta p0 p1) (i : ℚ) (edgeK p0 p1)) := by
      rw [hconv]
      exact hs.1
    have hs2 : dotProduct beta1
        (linearSolver beta0 (edgeBeta p0 p1) (i : ℚ) (edgeK p0 p1)) < M1 := by
      rw [hconv]
      exact hs.2
    have hjl : ⌊m1⌋ ≤
        ⌊dotProduct beta1 (linearSolver beta0 (edgeBeta p0 p1) (i : ℚ) (edgeK p0 p1))⌋ :=
      Int.floor_mono hs1
    have hjg :
        ⌊dotProduct beta1 (linearSolver beta0 (edgeBeta p0 p1) (i : ℚ) (edgeK p0 p1))⌋ <
          ⌈M1⌉ :=
      Int.floor_lt.mpr (lt_of_lt_of_le hs2 (Int.le_ceil M1))
    rw [mem_enumeratedAddresses]
    simp only [List.mem_cons, List.not_mem_nil, or_false] at hai
    rcases hai with rfl | rfl
    · exact ⟨by omega, by omega, hjl, hjg⟩
    · exact ⟨by omega, by omega, hjl, hjg⟩

/-- Witness for C4 (amended) at the tilt-0 axes, edge `(1/2,1/2) → (3/2,3/2)`
and corner bounds `m0 = −2, M0 = 0, m1 = 0, M1 = 2`: the trace writes
`(−1, 1)` and `(−2, 1)`, both inside the enumerated window. -/
theorem traceEdgeAxis0_writes_in_window_witness :
    ((-2 : ℚ) ≤ dotProduct ((0 : ℚ), (-1 : ℚ)) (1/2, 1/2) ∧
     dotProduct ((0 : ℚ), (-1 : ℚ)) (1/2, 1/2) ≤ 0 ∧
     (-2 : ℚ) ≤ dotProduct ((0 : ℚ), (-1 : ℚ)) (3/2, 3/2) ∧
     dotProduct ((0 : ℚ), (-1 : ℚ)) (3/2, 3/2) ≤ 0 ∧
     (0 : ℚ) ≤ dotProduct ((1 : ℚ), (0 : ℚ)) (1/2, 1/2) ∧
     dotProduct ((1 : ℚ), (0 : ℚ)) (1/2, 1/2) ≤ 2 ∧
     (0 : ℚ) ≤ dotProduct ((1 : ℚ), (0 : ℚ)) (3/2, 3/2) ∧
     dotProduct ((1 : ℚ), (0 : ℚ)) (3/2, 3/2) ≤ 2 ∧
     dotProduct ((1 : ℚ), (0 : ℚ)) (1/2, 1/2) < 2) ∧
    ∀ a ∈ traceEdgeAxis0 ((0 : ℚ), (-1 : ℚ)) ((1 : ℚ), (0 : ℚ)) (1/2, 1/2) (3/2, 3/2),
      a ∈ enumeratedAddresses (⌊(-2 : ℚ)⌋, ⌈(0 : ℚ)⌉) (⌊(0 : ℚ)⌋, ⌈(2 : ℚ)⌉) :=
  ⟨⟨by norm_num [dotProduct], by norm_num [dotProduct], by norm_num [dotProduct],
    by norm_num [dotProduct], by norm_num [dotProduct], by norm_num [dotProduct],
    by norm_num [dotProduct], by norm_num [dotProduct], by norm_num [dotProduct]⟩,
   traceEdgeAxis0_writes_in_window (0, -1) (1, 0) (1/2, 1/2) (3/2, 3/2) (-2) 0 0 2
     (by norm_num [dotProduct]) (by norm_num [dotProduct]) (by norm_num [dotProduct])
     (by norm_num [dotProduct]) (by norm_num [dotProduct]) (by norm_num [dotProduct])
     (by norm_num [dotProduct]) (by norm_num [dotProduct])
     (Or.inl (by norm_num [dotProduct]))⟩

end Hextile
